import Mathlib

/-!
Verification development for the binaural GUI's numeric core
(src/python_binaural/binaural_gui.py).

The three numeric components are embedded shallowly:

* `WaveformCanvas.draw_waveform` (lines 19-63): the pure geometry part
  (normalize, decimate, map to points) is `drawWaveform`, generic over a
  linear ordered field so that concrete evaluation can run over `ℚ`.
  The pixel painting itself is external and not modelled.  The places
  where the Python code raises (`np.max` of an empty array, integer
  division by a zero width) are modelled as `Except.error`.
* `WavVisualizer.transform_wav_file` (lines 144-197): the spatialization
  pipeline over `ℝ` (`itdSamples`, `leftGain`, `rightGain`,
  `shiftChannels`, `spatialize`) and the surrounding controller state
  update (`transformWavFile`).  Python's `int()` conversion truncates
  toward zero, which `pyTrunc` reproduces; `np.pad(a, (k, 0))[:-m]` is
  modelled with `List.replicate`/`List.take`.
* `ClickCanvas` angle geometry: `atan2`/`clickAngle` via `Complex.arg`.
-/

/-- `np.max(np.abs(l))` for a nonempty list, folded with `0` as base
(all entries of `l.map |·|` are nonnegative, so the base is harmless).
The empty-array error of `np.max` is handled at the call sites. -/
def maxAbs {α : Type} [LinearOrderedField α] (l : List α) : α :=
  (l.map (fun x => |x|)).foldr max 0

/-- Lines 24-26 of `draw_waveform`: `np.max(np.abs(a))` raises a
`ValueError` on an empty array; otherwise divide by the maximum absolute
value when it is positive, else leave the samples unchanged. -/
def normalizeStep {α : Type} [LinearOrderedField α] (audio : List α) :
    Except String (List α) :=
  if audio.isEmpty then
    Except.error "zero-size array to reduction operation maximum which has no identity"
  else if 0 < maxAbs audio then
    Except.ok (audio.map (fun x => x / maxAbs audio))
  else
    Except.ok audio

/-- Helper for `a[::k]`: the counter says how many elements are still to be
skipped before the next kept one. -/
def stridedAux {α : Type} (k : Nat) : Nat → List α → List α
  | _, [] => []
  | 0, x :: xs => x :: stridedAux k (k - 1) xs
  | n + 1, _ :: xs => stridedAux k n xs

/-- Python's `a[::k]` strided slice (for `k ≥ 1`): keep indices 0, k, 2k, … -/
def strided {α : Type} (k : Nat) (l : List α) : List α :=
  stridedAux k 0 l

/-- Lines 52-57 of `draw_waveform`: `x_step = width / len(downsampled)`,
`center_y = height // 2` (Python floor division, hence `Int.fdiv`), and each
kept sample at index `i` maps to the point
`(i * x_step, center_y - sample * (height / 2 - 5))`. -/
def tracePoints {α : Type} [LinearOrderedField α] (width height : ℤ)
    (ds : List α) : List (α × α) :=
  ds.enum.map (fun p =>
    ((p.1 : α) * ((width : α) / (ds.length : α)),
      ((Int.fdiv height 2 : ℤ) : α) - p.2 * ((height : α) / 2 - 5)))

/-- The pure geometry of `WaveformCanvas.draw_waveform` on a mono buffer:
normalize, then decimate with `downsample_factor = max(1, len(a) // width)`
(floor division: `ZeroDivisionError` when the width is zero), then map the
kept samples to trace points.  Painting the resulting segments is external. -/
def drawWaveform {α : Type} [LinearOrderedField α] (audio : List α)
    (width height : ℤ) : Except String (List (α × α)) :=
  match normalizeStep audio with
  | Except.error e => Except.error e
  | Except.ok a =>
    if width = 0 then Except.error "integer division or modulo by zero"
    else
      Except.ok (tracePoints width height
        (strided (max 1 (Int.fdiv (a.length : ℤ) width)).toNat a))

/-- Python's `int()` conversion of a float: truncation toward zero. -/
noncomputable def pyTrunc (x : ℝ) : ℤ :=
  if 0 ≤ x then ⌊x⌋ else ⌈x⌉

/-- Line 170: `itd_samples = int(np.sin(angle_rad) * 100)`. -/
noncomputable def itdSamples (angle : ℝ) : ℤ :=
  pyTrunc (Real.sin angle * 100)

/-- Line 173: `left_gain = np.cos(angle_rad / 2) * 0.5 + 0.5`. -/
noncomputable def leftGain (angle : ℝ) : ℝ :=
  Real.cos (angle / 2) * 0.5 + 0.5

/-- Line 174: `right_gain = -np.cos(angle_rad / 2) * 0.5 + 0.5`. -/
noncomputable def rightGain (angle : ℝ) : ℝ :=
  -Real.cos (angle / 2) * 0.5 + 0.5

/-- Lines 181-184: the ITD shift.  For `itd > 0` the right channel is
`np.pad(r, (itd, 0))[:-itd]` (prepend `itd` zeros, drop the last `itd`).
For `itd < 0` the code computes `np.pad(l, (-itd, 0))[:-itd]`; since
`itd` is negative the slice stop `-itd` is positive, so this keeps only
the FIRST `-itd` elements of the padded array (which are exactly the
prepended zeros) instead of dropping a tail. -/
def shiftChannels (itd : ℤ) (left right : List ℝ) : List ℝ × List ℝ :=
  if 0 < itd then
    (left,
      (List.replicate itd.toNat (0 : ℝ) ++ right).take
        ((List.replicate itd.toNat (0 : ℝ) ++ right).length - itd.toNat))
  else if itd < 0 then
    ((List.replicate (-itd).toNat (0 : ℝ) ++ left).take (-itd).toNat, right)
  else
    (left, right)

/-- Lines 170-188: the full mono→(left, right) spatialization of
`transform_wav_file`: compute the ITD shift, copy the mono buffer into both
channels, shift, then scale by the two gains. -/
noncomputable def spatialize (mono : List ℝ) (angle : ℝ) : List ℝ × List ℝ :=
  let p := shiftChannels (itdSamples angle) mono mono
  (p.1.map (fun x => x * leftGain angle), p.2.map (fun x => x * rightGain angle))

/-- The buffer held in `self.wav_data`: a 1-D mono array or a 2-D stereo
array of frames. -/
inductive WavData
  | mono (samples : List ℝ)
  | stereo (frames : List (ℝ × ℝ))

/-- Lines 160-163: a stereo buffer is downmixed by per-frame averaging. -/
noncomputable def downmix : WavData → List ℝ
  | WavData.mono s => s
  | WavData.stereo f => f.map (fun p => (p.1 + p.2) / 2)

/-- The controller state of `WavVisualizer` that `transform_wav_file`
reads and writes: the loaded buffer and the last click position. -/
structure VisState where
  wavData : Option WavData
  lastClickPos : Option (ℤ × ℤ)

/-- `np.arctan2 y x` as the argument of the complex number `x + y·i`. -/
noncomputable def atan2 (y x : ℝ) : ℝ :=
  Complex.arg ⟨x, y⟩

/-- Lines 151-157: `dx = pos.x - w//2`, `dy = pos.y - h//2`,
`angle = np.arctan2(dx, -dy)`. -/
noncomputable def clickAngle (pos : ℤ × ℤ) (clickW clickH : ℤ) : ℝ :=
  atan2 ((pos.1 - Int.fdiv clickW 2 : ℤ) : ℝ) (-((pos.2 - Int.fdiv clickH 2 : ℤ) : ℝ))

/-- The message shown in `filename_label` at the end of a transform
request, with the distinct failure modes kept apart: the
precondition message (line 146), the `ValueError` of `np.column_stack`
on channels of different lengths (line 191), an exception raised by the
preview redraw (line 194), and the success message (line 193). -/
inductive TransformMsg
  | noFileOrDot
  | columnStackError
  | previewError (e : String)
  | success

/-- Lines 159-197 of `transform_wav_file` once both preconditions hold:
spatialize, combine with `np.column_stack` (which raises when the two
channels have different lengths, leaving the state unchanged), store the
stereo result in `wav_data`, then redraw the preview from the left
channel (line 194) — an exception there is caught at line 196 after the
assignment has already happened. -/
noncomputable def transformCore (s : VisState) (wd : WavData) (angle : ℝ)
    (canvasW canvasH : ℤ) : VisState × TransformMsg :=
  let p := spatialize (downmix wd) angle
  if p.1.length = p.2.length then
    let s2 : VisState := { s with wavData := some (WavData.stereo (p.1.zip p.2)) }
    match drawWaveform p.1 canvasW canvasH with
    | Except.error e => (s2, TransformMsg.previewError e)
    | Except.ok _ => (s2, TransformMsg.success)
  else (s, TransformMsg.columnStackError)

/-- `WavVisualizer.transform_wav_file` (lines 144-197) as a transition on
the controller state, returning the new state and the label message. -/
noncomputable def transformWavFile (s : VisState) (clickW clickH canvasW canvasH : ℤ) :
    VisState × TransformMsg :=
  match s.wavData, s.lastClickPos with
  | none, _ => (s, TransformMsg.noFileOrDot)
  | some _, none => (s, TransformMsg.noFileOrDot)
  | some wd, some pos =>
    transformCore s wd (clickAngle pos clickW clickH) canvasW canvasH

/-! ### Helper lemmas about `maxAbs` -/

theorem maxAbs_cons {α : Type} [LinearOrderedField α] (x : α) (t : List α) :
    maxAbs (x :: t) = max |x| (maxAbs t) := rfl

theorem maxAbs_nonneg {α : Type} [LinearOrderedField α] (l : List α) :
    0 ≤ maxAbs l := by
  induction l with
  | nil => exact le_refl 0
  | cons x t ih => exact ih.trans (le_max_right _ _)

theorem le_maxAbs {α : Type} [LinearOrderedField α] {x : α} {l : List α}
    (hx : x ∈ l) : |x| ≤ maxAbs l := by
  induction l with
  | nil => cases hx
  | cons a t ih =>
    rcases List.mem_cons.mp hx with rfl | hmem
    · exact le_max_left _ _
    · exact (ih hmem).trans (le_max_right _ _)

theorem maxAbs_of_all_zero {α : Type} [LinearOrderedField α] {l : List α}
    (h : ∀ x ∈ l, x = 0) : maxAbs l = 0 := by
  induction l with
  | nil => rfl
  | cons a t ih =>
    rw [maxAbs_cons, h a (List.mem_cons_self a t), ih fun x hx => h x (List.mem_cons_of_mem a hx)]
    simp

theorem maxAbs_mem {α : Type} [LinearOrderedField α] {l : List α}
    (h : l ≠ []) : ∃ x ∈ l, |x| = maxAbs l := by
  induction l with
  | nil => exact absurd rfl h
  | cons a t ih =>
    cases t with
    | nil =>
      exact ⟨a, List.mem_cons_self a [],
        by rw [maxAbs_cons, show maxAbs ([] : List α) = 0 from rfl,
          max_eq_left (abs_nonneg a)]⟩
    | cons b t2 =>
      rcases le_total (maxAbs (b :: t2)) |a| with hle | hle
      · exact ⟨a, List.mem_cons_self _ _, by rw [maxAbs_cons, max_eq_left hle]⟩
      · obtain ⟨y, hy, he⟩ := ih (List.cons_ne_nil b t2)
        exact ⟨y, List.mem_cons_of_mem a hy, by rw [maxAbs_cons, max_eq_right hle, he]⟩

theorem maxAbs_map_div {α : Type} [LinearOrderedField α] (l : List α) {m : α}
    (hm : 0 < m) : maxAbs (l.map (fun x => x / m)) = maxAbs l / m := by
  induction l with
  | nil => simp [maxAbs]
  | cons a t ih =>
    rw [List.map_cons, maxAbs_cons, maxAbs_cons, ih, abs_div, abs_of_pos hm,
      max_div_div_right hm.le]

/-! ### Helper lemmas about `normalizeStep`, `stridedAux`, `tracePoints` -/

theorem normalizeStep_ok {α : Type} [LinearOrderedField α] (audio : List α)
    (hne : audio ≠ []) :
    ∃ a, normalizeStep audio = Except.ok a ∧ a.length = audio.length := by
  obtain ⟨x, t, rfl⟩ := List.exists_cons_of_ne_nil hne
  unfold normalizeStep
  rw [if_neg (by simp : ¬((x :: t).isEmpty = true))]
  by_cases hm : 0 < maxAbs (x :: t)
  · rw [if_pos hm]
    exact ⟨_, rfl, by simp⟩
  · rw [if_neg hm]
    exact ⟨x :: t, rfl, rfl⟩

theorem drawWaveform_ok {α : Type} [LinearOrderedField α] {audio a : List α}
    {W H : ℤ} (ha : normalizeStep audio = Except.ok a) (hW : W ≠ 0) :
    drawWaveform audio W H =
      Except.ok (tracePoints W H (strided (max 1 (Int.fdiv (a.length : ℤ) W)).toNat a)) := by
  unfold drawWaveform
  rw [ha]
  show (if W = 0 then Except.error "integer division or modulo by zero"
      else Except.ok (tracePoints W H (strided (max 1 (Int.fdiv (a.length : ℤ) W)).toNat a))) =
    Except.ok (tracePoints W H (strided (max 1 (Int.fdiv (a.length : ℤ) W)).toNat a))
  rw [if_neg hW]

theorem stridedAux_length_le {α : Type} (k : Nat) (l : List α) :
    ∀ n : Nat, (stridedAux k n l).length ≤ l.length := by
  induction l with
  | nil => intro n; simp [stridedAux]
  | cons a t ih =>
    intro n
    cases n with
    | zero =>
      simpa [stridedAux] using Nat.succ_le_succ (ih (k - 1))
    | succ m =>
      simpa [stridedAux] using (ih m).trans (Nat.le_succ _)

theorem stridedAux_subset {α : Type} (k : Nat) (l : List α) :
    ∀ (n : Nat) (x : α), x ∈ stridedAux k n l → x ∈ l := by
  induction l with
  | nil => intro n x hx; simp [stridedAux] at hx
  | cons a t ih =>
    intro n x hx
    cases n with
    | zero =>
      rcases List.mem_cons.mp (by simpa [stridedAux] using hx) with rfl | hmem
      · exact List.mem_cons_self _ _
      · exact List.mem_cons_of_mem a (ih _ x hmem)
    | succ m =>
      exact List.mem_cons_of_mem a (ih m x (by simpa [stridedAux] using hx))

theorem strided_cons_ne_nil {α : Type} (k : Nat) (a : α) (t : List α) :
    strided k (a :: t) ≠ [] := by
  simp [strided, stridedAux]

theorem tracePoints_length {α : Type} [LinearOrderedField α] (w h : ℤ)
    (ds : List α) : (tracePoints w h ds).length = ds.length := by
  simp [tracePoints]

theorem tracePoints_map_fst {α : Type} [LinearOrderedField α] (w h : ℤ)
    (ds : List α) :
    (tracePoints w h ds).map Prod.fst =
      (List.range ds.length).map (fun i : ℕ => (i : α) * ((w : α) / (ds.length : α))) := by
  unfold tracePoints
  rw [List.map_map]
  show ds.enum.map ((fun i : ℕ => (i : α) * ((w : α) / (ds.length : α))) ∘ Prod.fst) = _
  conv_lhs => rw [← List.map_map]
  rw [List.enum_map_fst]

theorem tracePoints_map_snd {α : Type} [LinearOrderedField α] (w h : ℤ)
    (ds : List α) :
    (tracePoints w h ds).map Prod.snd =
      ds.map (fun s => ((Int.fdiv h 2 : ℤ) : α) - s * ((h : α) / 2 - 5)) := by
  unfold tracePoints
  rw [List.map_map]
  show ds.enum.map
      ((fun s : α => ((Int.fdiv h 2 : ℤ) : α) - s * ((h : α) / 2 - 5)) ∘ Prod.snd) = _
  conv_lhs => rw [← List.map_map]
  rw [List.enum_map_snd]

theorem pairwise_mul_range {α : Type} [LinearOrderedField α] {c : α}
    (hc : 0 ≤ c) (n : ℕ) :
    (((List.range n).map (fun i : ℕ => (i : α) * c)).Pairwise (fun a b => a ≤ b)) :=
  List.Pairwise.map (fun i : ℕ => (i : α) * c)
    (fun _ _ hab => mul_le_mul_of_nonneg_right (Nat.cast_le.mpr (Nat.le_of_lt hab)) hc)
    (List.pairwise_lt_range n)

/-! ### Helper lemmas about the spatializer -/

theorem itdSamples_zero : itdSamples 0 = 0 := by
  unfold itdSamples pyTrunc
  rw [Real.sin_zero, zero_mul, if_pos (le_refl (0 : ℝ))]
  exact Int.floor_zero

theorem leftGain_zero : leftGain 0 = 1 := by
  unfold leftGain
  rw [zero_div, Real.cos_zero]
  norm_num

theorem rightGain_zero : rightGain 0 = 0 := by
  unfold rightGain
  rw [zero_div, Real.cos_zero]
  norm_num

theorem shiftChannels_zero (left right : List ℝ) :
    shiftChannels 0 left right = (left, right) := by
  unfold shiftChannels
  norm_num

theorem spatialize_at_zero (mono : List ℝ) :
    spatialize mono 0 = (mono, List.replicate mono.length 0) := by
  unfold spatialize
  rw [itdSamples_zero, shiftChannels_zero]
  show (mono.map (fun x => x * leftGain 0), mono.map (fun x => x * rightGain 0)) =
    (mono, List.replicate mono.length 0)
  rw [leftGain_zero, rightGain_zero]
  simp [List.map_const']

theorem itdSamples_neg_half_pi : itdSamples (-(Real.pi / 2)) = -100 := by
  unfold itdSamples pyTrunc
  have hs : Real.sin (-(Real.pi / 2)) * 100 = -100 := by
    rw [Real.sin_neg, Real.sin_pi_div_two]
    norm_num
  rw [hs, if_neg (by norm_num : ¬(0 : ℝ) ≤ -100)]
  rw [show ((-100 : ℝ)) = ((-100 : ℤ) : ℝ) by norm_num, Int.ceil_intCast]

theorem sqrt_three_gt : (1.73 : ℝ) < Real.sqrt 3 := by
  nlinarith [Real.sq_sqrt (by norm_num : (0 : ℝ) ≤ 3), Real.sqrt_nonneg 3]

theorem sqrt_three_lt : Real.sqrt 3 < 1.74 := by
  nlinarith [Real.sq_sqrt (by norm_num : (0 : ℝ) ≤ 3), Real.sqrt_nonneg 3]

/-! ### Claim theorems -/

/-- Claim C7 (confirmed): for `angle_radians = 0` the spatializer computes
`itd = 0` (no shift), `left_gain = 1`, `right_gain = 0`, so the left channel
equals the mono input and the right channel is all zeros. -/
theorem c7_angle_zero (mono : List ℝ) :
    itdSamples 0 = 0 ∧ leftGain 0 = 1 ∧ rightGain 0 = 0 ∧
      spatialize mono 0 = (mono, List.replicate mono.length 0) :=
  ⟨itdSamples_zero, leftGain_zero, rightGain_zero, spatialize_at_zero mono⟩

/-- Claim C10 (confirmed): the two channel gains sum exactly to 1 for every
angle, so the panning is amplitude-complementary in every direction. -/
theorem c10_gains_sum_to_one (a : ℝ) : leftGain a + rightGain a = 1 := by
  unfold leftGain rightGain
  ring

/-- Claim C3, counterexample: at `angle_radians = π/3` the code's
`int(np.sin(angle) * 100)` truncates `50·√3 ≈ 86.60` to `86`, while
rounding to the nearest integer (as the claim states) would give `87`. -/
theorem c3_counterexample :
    itdSamples (Real.pi / 3) = 86 ∧ round (Real.sin (Real.pi / 3) * 100) = 87 := by
  have hs : Real.sin (Real.pi / 3) * 100 = Real.sqrt 3 * 50 := by
    rw [Real.sin_pi_div_three]
    ring
  have hlb : (86.5 : ℝ) < Real.sqrt 3 * 50 := by nlinarith [sqrt_three_gt]
  have hub : Real.sqrt 3 * 50 < 87 := by nlinarith [sqrt_three_lt]
  constructor
  · unfold itdSamples pyTrunc
    rw [hs, if_pos (by nlinarith [Real.sqrt_nonneg 3] : (0 : ℝ) ≤ Real.sqrt 3 * 50)]
    rw [Int.floor_eq_iff]
    constructor
    · push_cast
      nlinarith
    · push_cast
      nlinarith
  · rw [hs, round_eq, Int.floor_eq_iff]
    constructor
    · push_cast
      nlinarith
    · push_cast
      nlinarith

/-- Claim C3, amended: the ITD sample count is `sin(angle)·100` truncated
toward zero (Python `int()`), characterized here without reference to the
definition's branches: its magnitude is within 1 below `|sin(angle)·100|`
and its sign agrees with `sin(angle)`. -/
theorem c3_amended_itd_truncates (a : ℝ) :
    |((itdSamples a : ℤ) : ℝ)| ≤ |Real.sin a * 100| ∧
      |Real.sin a * 100| < |((itdSamples a : ℤ) : ℝ)| + 1 ∧
      0 ≤ ((itdSamples a : ℤ) : ℝ) * (Real.sin a * 100) := by
  unfold itdSamples pyTrunc
  by_cases h : (0 : ℝ) ≤ Real.sin a * 100
  · rw [if_pos h]
    have h0 : (0 : ℝ) ≤ ((⌊Real.sin a * 100⌋ : ℤ) : ℝ) := by
      exact_mod_cast Int.floor_nonneg.mpr h
    refine ⟨?_, ?_, mul_nonneg h0 h⟩
    · rw [abs_of_nonneg h0, abs_of_nonneg h]
      exact Int.floor_le _
    · rw [abs_of_nonneg h0, abs_of_nonneg h]
      exact Int.lt_floor_add_one _
  · rw [if_neg h]
    push_neg at h
    have hc : ((⌈Real.sin a * 100⌉ : ℤ) : ℝ) ≤ 0 := by
      exact_mod_cast Int.ceil_le.mpr (by exact_mod_cast h.le : Real.sin a * 100 ≤ ((0 : ℤ) : ℝ))
    refine ⟨?_, ?_, by nlinarith [Int.le_ceil (Real.sin a * 100)]⟩
    · rw [abs_of_nonpos hc, abs_of_nonpos h.le]
      exact neg_le_neg (Int.le_ceil _)
    · rw [abs_of_nonpos hc, abs_of_nonpos h.le]
      have := Int.ceil_lt_add_one (Real.sin a * 100)
      linarith

/-- Claim C1 (code bug): at `angle_radians = −π/2` the ITD is `−100`, and on
the 3-sample mono buffer `[1, 2, 3]` the code's negative-ITD branch
`np.pad(left, (100, 0))[:-itd_samples]` slices with stop `-itd_samples = 100`,
keeping the 100 prepended zeros: the left channel comes back with length 100,
not the input length 3 claimed (and `np.column_stack` then raises). -/
theorem c1_left_shift_bug :
    itdSamples (-(Real.pi / 2)) = -100 ∧
      (spatialize [1, 2, 3] (-(Real.pi / 2))).1.length = 100 ∧
      (spatialize [1, 2, 3] (-(Real.pi / 2))).2.length = 3 := by
  refine ⟨itdSamples_neg_half_pi, ?_, ?_⟩ <;>
    · unfold spatialize
      rw [itdSamples_neg_half_pi]
      norm_num [shiftChannels]
      all_goals decide

/-- Claim C2 (code bug): spatializing the empty mono buffer at
`angle_radians = −π/2` (ITD `−100`) returns a left channel of 100 zeros and
an empty right channel — not two empty channels; `np.column_stack` then
raises a `ValueError` on the mismatched lengths. -/
theorem c2_empty_buffer_bug :
    (spatialize [] (-(Real.pi / 2))).1 = List.replicate 100 (0 : ℝ) ∧
      (spatialize [] (-(Real.pi / 2))).2 = ([] : List ℝ) ∧
      List.replicate 100 (0 : ℝ) ≠ ([] : List ℝ) := by
  refine ⟨?_, ?_, by simp⟩ <;>
    · unfold spatialize
      rw [itdSamples_neg_half_pi]
      norm_num [shiftChannels, List.take_replicate]
      all_goals decide

/-- Claim C4, counterexample: an empty sample buffer is not given a fallback
output; `np.max` of the empty array raises a `ValueError` inside
`draw_waveform`. -/
theorem c4_counterexample_empty_raises :
    drawWaveform ([] : List ℚ) 750 200 =
      Except.error "zero-size array to reduction operation maximum which has no identity" := rfl

/-- Claim C4, amended: for a nonempty all-zero buffer and a nonzero canvas
width the renderer does produce the defined fallback — a nonempty trace whose
points all sit on the centerline `height // 2`; but the empty buffer (and a
zero canvas width) raise errors instead of producing a fallback. -/
theorem c4_amended_flat_centerline (audio : List ℚ) (W H : ℤ) (hne : audio ≠ [])
    (hz : ∀ x ∈ audio, x = 0) (hW : W ≠ 0) :
    ∃ pts, drawWaveform audio W H = Except.ok pts ∧ pts ≠ [] ∧
      ∀ p ∈ pts, p.2 = ((Int.fdiv H 2 : ℤ) : ℚ) := by
  obtain ⟨x, t, rfl⟩ := List.exists_cons_of_ne_nil hne
  have hnorm : normalizeStep (x :: t) = Except.ok (x :: t) := by
    unfold normalizeStep
    rw [if_neg (by simp : ¬((x :: t).isEmpty = true)), maxAbs_of_all_zero hz,
      if_neg (lt_irrefl 0)]
  have hd : drawWaveform (x :: t) W H =
      Except.ok (tracePoints W H
        (strided (max 1 (Int.fdiv ((x :: t).length : ℤ) W)).toNat (x :: t))) :=
    drawWaveform_ok hnorm hW
  refine ⟨_, hd, ?_, ?_⟩
  · intro hnil
    apply strided_cons_ne_nil (max 1 (Int.fdiv ((x :: t).length : ℤ) W)).toNat x t
    have hlen := congrArg List.length hnil
    rw [tracePoints_length] at hlen
    exact List.length_eq_zero.mp hlen
  · intro p hp
    have h2 : p.2 ∈ (tracePoints W H
        (strided (max 1 (Int.fdiv ((x :: t).length : ℤ) W)).toNat (x :: t))).map Prod.snd :=
      List.mem_map_of_mem Prod.snd hp
    rw [tracePoints_map_snd] at h2
    obtain ⟨s, hs, heq⟩ := List.mem_map.mp h2
    have hs0 : s = 0 := hz s (stridedAux_subset _ _ _ _ hs)
    rw [← heq, hs0]
    simp

/-- Witness for the amended C4 at a concrete input: the all-zero 3-sample
buffer on a 2×10 canvas yields a nonempty flat-centerline trace. -/
theorem c4_amended_witness :
    ∃ pts, drawWaveform ([0, 0, 0] : List ℚ) 2 10 = Except.ok pts ∧ pts ≠ [] ∧
      ∀ p ∈ pts, p.2 = ((Int.fdiv 10 2 : ℤ) : ℚ) :=
  c4_amended_flat_centerline [0, 0, 0] 2 10 (by decide) (by decide) (by decide)

/-- Claim C5, counterexample: for the 5-sample buffer `[1,1,1,1,1]` and
canvas width 3 the stride is `max(1, 5 // 3) = 1`, so the trace has 5
points, exceeding the claimed bound `min(L, W) = 3`. -/
theorem c5_counterexample :
    (drawWaveform ([1, 1, 1, 1, 1] : List ℚ) 3 20).toOption.map List.length = some 5 ∧
      ¬(5 ≤ min 5 3) := by
  constructor
  · rfl
  · decide

/-- Claim C5, amended: for every nonempty mono buffer and positive canvas
width the trace has at most `L` points (not `min(L, W)`: the stride
`max(1, L // W)` can keep more than `W` samples) and its x coordinates are
pairwise (hence consecutively) nondecreasing.  The empty buffer raises
instead of producing a trace. -/
theorem c5_amended_trace_bounds (audio : List ℚ) (W H : ℤ) (hne : audio ≠ [])
    (hW : 0 < W) :
    ∃ pts, drawWaveform audio W H = Except.ok pts ∧ pts.length ≤ audio.length ∧
      (pts.map Prod.fst).Pairwise (fun a b => a ≤ b) := by
  obtain ⟨a, ha, halen⟩ := normalizeStep_ok audio hne
  have hd : drawWaveform audio W H =
      Except.ok (tracePoints W H (strided (max 1 (Int.fdiv (a.length : ℤ) W)).toNat a)) :=
    drawWaveform_ok ha hW.ne'
  refine ⟨_, hd, ?_, ?_⟩
  · rw [tracePoints_length]
    exact le_trans (stridedAux_length_le _ a 0) (le_of_eq halen)
  · rw [tracePoints_map_fst]
    exact pairwise_mul_range
      (div_nonneg (by exact_mod_cast hW.le) (Nat.cast_nonneg _)) _

/-- Witness for the amended C5 at a concrete input: buffer `[1, 2]`, canvas
width 1. -/
theorem c5_amended_witness :
    ∃ pts, drawWaveform ([1, 2] : List ℚ) 1 10 = Except.ok pts ∧
      pts.length ≤ ([1, 2] : List ℚ).length ∧
      (pts.map Prod.fst).Pairwise (fun a b => a ≤ b) :=
  c5_amended_trace_bounds [1, 2] 1 10 (by decide) (by decide)

/-- Claim C6, counterexample: the normalization step does not leave an empty
(vacuously all-zero) buffer unchanged — `np.max` of the empty array raises. -/
theorem c6_counterexample :
    normalizeStep ([] : List ℚ) =
      Except.error "zero-size array to reduction operation maximum which has no identity" := rfl

/-- Claim C6, amended: for every nonempty mono sequence, normalization
leaves it unchanged when every sample is 0, and otherwise divides every
sample by `m = max |sample|`, after which `|y| = 1` for at least one
sample `y`.  (For the empty sequence `np.max` raises instead.) -/
theorem c6_amended_normalization (audio : List ℚ) (hne : audio ≠ []) :
    ((∀ x ∈ audio, x = 0) → normalizeStep audio = Except.ok audio) ∧
      ((∃ x ∈ audio, x ≠ 0) →
        normalizeStep audio = Except.ok (audio.map (fun y => y / maxAbs audio)) ∧
          ∃ y ∈ audio.map (fun y => y / maxAbs audio), |y| = 1) := by
  obtain ⟨x, t, rfl⟩ := List.exists_cons_of_ne_nil hne
  constructor
  · intro hz
    unfold normalizeStep
    rw [if_neg (by simp : ¬((x :: t).isEmpty = true)), maxAbs_of_all_zero hz,
      if_neg (lt_irrefl 0)]
  · rintro ⟨z, hz, hz0⟩
    have hm : 0 < maxAbs (x :: t) := lt_of_lt_of_le (abs_pos.mpr hz0) (le_maxAbs hz)
    refine ⟨?_, ?_⟩
    · unfold normalizeStep
      rw [if_neg (by simp : ¬((x :: t).isEmpty = true)), if_pos hm]
    · obtain ⟨y, hy, hyeq⟩ := maxAbs_mem (List.cons_ne_nil x t)
      refine ⟨y / maxAbs (x :: t), List.mem_map_of_mem _ hy, ?_⟩
      rw [abs_div, hyeq, abs_of_pos hm, div_self hm.ne']

/-- Witness for the amended C6 at a concrete input: the buffer `[0, 2]`
contains a nonzero sample, is normalized by dividing by 2, and afterwards
contains a sample of absolute value 1. -/
theorem c6_amended_witness :
    normalizeStep ([0, 2] : List ℚ) =
        Except.ok (([0, 2] : List ℚ).map (fun y => y / maxAbs ([0, 2] : List ℚ))) ∧
      ∃ y ∈ ([0, 2] : List ℚ).map (fun y => y / maxAbs ([0, 2] : List ℚ)), |y| = 1 :=
  (c6_amended_normalization [0, 2] (by decide)).2 ⟨2, by decide, by decide⟩

/-! ### Helper lemmas for the transform state transition -/

theorem clickAngle_center : clickAngle (225, 225) 450 450 = 0 := by
  have h2 : Int.fdiv 450 2 = (225 : ℤ) := by decide
  unfold clickAngle atan2
  rw [h2]
  norm_num
  exact Complex.arg_zero

theorem spatialize_empty_zero : spatialize ([] : List ℝ) 0 = ([], []) := by
  simpa using spatialize_at_zero []

/-- Claim C9, counterexample: transforming a loaded empty buffer with the
dot at the pad center (angle 0) stores the empty stereo buffer and only then
fails in the preview redraw (`np.max` of the empty left channel), so a
failing transform request has replaced the stored mono buffer. -/
theorem c9_counterexample :
    (transformWavFile ⟨some (WavData.mono []), some (225, 225)⟩ 450 450 750 200).2 =
        TransformMsg.previewError
          "zero-size array to reduction operation maximum which has no identity" ∧
      (transformWavFile ⟨some (WavData.mono []), some (225, 225)⟩ 450 450 750 200).1.wavData =
        some (WavData.stereo []) ∧
      (⟨some (WavData.mono []), some (225, 225)⟩ : VisState).wavData ≠
        some (WavData.stereo []) := by
  have ht : transformWavFile ⟨some (WavData.mono []), some (225, 225)⟩ 450 450 750 200 =
      (⟨some (WavData.stereo []), some (225, 225)⟩,
        TransformMsg.previewError
          "zero-size array to reduction operation maximum which has no identity") := by
    show transformCore ⟨some (WavData.mono []), some (225, 225)⟩ (WavData.mono [])
        (clickAngle (225, 225) 450 450) 750 200 = _
    rw [clickAngle_center]
    simp only [transformCore, downmix, spatialize_empty_zero]
    rfl
  rw [ht]
  refine ⟨rfl, rfl, ?_⟩
  simp

/-- Claim C9, amended: when a transform request fails because no audio is
loaded, no click position exists (both reported as the precondition message),
or because `np.column_stack` raises on mismatched channel lengths, the state
— in particular the stored buffer — is left exactly as it was.  (A failure
in the preview redraw, by contrast, happens after the new buffer is stored;
see the counterexample.) -/
theorem c9_amended_failure_preserves_state (s : VisState) (cw ch w h : ℤ)
    (hfail : (transformWavFile s cw ch w h).2 = TransformMsg.noFileOrDot ∨
      (transformWavFile s cw ch w h).2 = TransformMsg.columnStackError) :
    (transformWavFile s cw ch w h).1 = s := by
  obtain ⟨wd, pos⟩ := s
  cases wd with
  | none => rfl
  | some d =>
    cases pos with
    | none => rfl
    | some pp =>
      have heq : transformWavFile ⟨some d, some pp⟩ cw ch w h =
          transformCore ⟨some d, some pp⟩ d (clickAngle pp cw ch) w h := rfl
      rw [heq] at hfail ⊢
      simp only [transformCore] at hfail ⊢
      by_cases hlen : (spatialize (downmix d) (clickAngle pp cw ch)).1.length =
          (spatialize (downmix d) (clickAngle pp cw ch)).2.length
      · rw [if_pos hlen] at hfail
        cases hdw : drawWaveform (spatialize (downmix d) (clickAngle pp cw ch)).1 w h with
        | error e =>
          rw [hdw] at hfail
          simp at hfail
        | ok v =>
          rw [hdw] at hfail
          simp at hfail
      · rw [if_neg hlen]

/-- Witness for the amended C9 at a concrete input: with no file loaded the
request reports the precondition message and the state is unchanged. -/
theorem c9_amended_witness :
    (transformWavFile ⟨none, none⟩ 450 450 750 200).1 = (⟨none, none⟩ : VisState) :=
  c9_amended_failure_preserves_state ⟨none, none⟩ 450 450 750 200 (Or.inl rfl)
